import Mathlib

/-!
Shallow embedding of the PlateMap application (src/platemap_app.py).

External services (Google Vision, Wikipedia, the geocoder, the TasteAtlas
page fetch, the USDA nutrition API, the OpenAI completion API) are modelled
as environment records whose fields hold the response each call site would
observe; a call that can raise a Python exception is modelled as an
`Except String` value carrying the exception name.  Python floats that only
ever flow through arithmetic and comparisons are modelled as rationals.
-/

namespace PlateMap

/-! ## Python primitives -/

/-- Python `int(x)` truncates toward zero. -/
def pyInt (x : ℚ) : ℤ := if 0 ≤ x then ⌊x⌋ else ⌈x⌉

/-- Python list indexing `l[n]`: raises `IndexError` when out of range. -/
def listIdx {α : Type} (l : List α) (n : Nat) : Except String α :=
  match l.get? n with
  | some a => .ok a
  | none => .error "IndexError"

/-- Python `s.lower()`, modelled as lower-casing every character. -/
def pyLower (s : String) : String := ⟨s.data.map Char.toLower⟩

/-! ## Image annotation (detect_food_from_image, lines 40-63)

The OpenCV image is modelled as its dimensions plus the list of drawing
operations painted on top of the base pixels; `cv2.rectangle` and
`cv2.putText` append operations.  `image_cv.shape[1]` is the width and
`image_cv.shape[0]` the height. -/

inductive DrawOp where
  | rect (p1 p2 : ℤ × ℤ)
  | text (label : String) (pos : ℤ × ℤ)
deriving DecidableEq, Repr

structure Image where
  width : Nat
  height : Nat
  ops : List DrawOp
deriving DecidableEq, Repr

/-- One localized object of the vision response: a label, a confidence score
and the normalized (fraction-of-image) bounding-poly vertices. -/
structure VisionObject where
  name : String
  score : ℚ
  normalizedVertices : List (ℚ × ℚ)
deriving DecidableEq, Repr

structure Detection where
  name : String
  confidence : ℚ
  vertices : List (ℤ × ℤ)
deriving DecidableEq, Repr

/-- Line 53: `(int(v.x * image_cv.shape[1]), int(v.y * image_cv.shape[0]))`. -/
def toPixel (v : ℚ × ℚ) (w h : Nat) : ℤ × ℤ :=
  (pyInt (v.1 * w), pyInt (v.2 * h))

/-- The per-object loop of `detect_food_from_image` (lines 50-59): objects
whose lowered name is food/dish/plate are mapped to pixel space, recorded and
drawn; `vertices[0]` and `vertices[2]` raise `IndexError` when the vertex
list is too short. -/
def detectLoop (w h : Nat) :
    List VisionObject → List Detection × Image → Except String (List Detection × Image)
  | [], acc => .ok acc
  | obj :: rest, (dets, img) =>
    if pyLower obj.name ∈ ["food", "dish", "plate"] then
      let verts := obj.normalizedVertices.map (fun v => toPixel v w h)
      match listIdx verts 0, listIdx verts 2 with
      | .ok v0, .ok v2 =>
        detectLoop w h rest
          (dets ++ [⟨obj.name, obj.score, verts⟩],
           { img with ops := img.ops ++ [.rect v0 v2, .text obj.name (v0.1, v0.2 - 10)] })
      | .error e, _ => .error e
      | .ok _, .error e => .error e
    else detectLoop w h rest (dets, img)

/-- `detect_food_from_image` (lines 40-63): returns the detected foods and
the (possibly annotated) image that is written to `annotated_image.jpg`. -/
def detect_food_from_image (resp : List VisionObject) (img : Image) :
    Except String (List Detection × Image) :=
  detectLoop img.width img.height resp ([], img)

/-! ## Origin resolution (get_food_origin_coordinates, lines 66-96) -/

inductive OriginSource where
  | encyclopedia
  | atlas
  | unknown
deriving DecidableEq, Repr

structure OriginRecord where
  narrative : String
  latitude : ℚ
  longitude : ℚ
  /-- Ghost field recording which branch of the source appended the tuple. -/
  source : OriginSource
deriving DecidableEq, Repr

/-- Environment observed by one invocation of the origin resolver (and the
map step, which shares the same `geolocator`).  `wikiSummary` is
`wikipedia.summary(food_name, sentences=2)`; `geocode` is
`geolocator.geocode`; `atlasGet` is `requests.get` keyed by URL, yielding the
status code and the page's meta-description content (if any). -/
structure OriginEnv where
  wikiSummary : Except String String
  geocode : String → Except String (Option (ℚ × ℚ))
  atlasGet : String → Except String (Nat × Option String)

/-- Line 81: `food_name.lower().replace(' ', '-')`. -/
def slug (food_name : String) : String :=
  (pyLower food_name).replace " " "-"

def atlasUrl (food_name : String) : String :=
  "https://www.tasteatlas.com/" ++ slug food_name

/-- Line 86: meta description content, or the fallback string. -/
def locationText (food_name : String) (desc : Option String) : String :=
  match desc with
  | some c => c
  | none => "No specific origins found for " ++ food_name

/-- Line 87: `location_text.split(",")[0]`. -/
def firstCommaPart (s : String) : String :=
  (s.splitOn ",").headD s

/-- The Wikipedia try-block (lines 71-77): any exception in the block yields
no record; a geocode miss (None) also yields no record. -/
def wikiAttempt (env : OriginEnv) (food_name : String) : List OriginRecord :=
  match env.wikiSummary with
  | .error _ => []
  | .ok s =>
    match env.geocode food_name with
    | .error _ => []
    | .ok none => []
    | .ok (some (la, lo)) => [⟨"Wikipedia: " ++ s, la, lo, .encyclopedia⟩]

/-- The FoodAtlas try-block (lines 80-91): only a 200 status is processed;
any exception yields no record; a geocode miss yields no record. -/
def atlasAttempt (env : OriginEnv) (food_name : String) : List OriginRecord :=
  match env.atlasGet (atlasUrl food_name) with
  | .error _ => []
  | .ok (status, desc) =>
    if status = 200 then
      match env.geocode (firstCommaPart (locationText food_name desc)) with
      | .error _ => []
      | .ok none => []
      | .ok (some (la, lo)) => [⟨locationText food_name desc, la, lo, .atlas⟩]
    else []

/-- `get_food_origin_coordinates` (lines 66-96), the body behind the
`lru_cache` decorator: the Wikipedia block appends first, then the FoodAtlas
block; if neither appended, the sentinel `("Unknown origin", 0, 0)` is
returned alone. -/
def get_food_origin_coordinates (env : OriginEnv) (food_name : String) :
    List OriginRecord :=
  let origins := wikiAttempt env food_name ++ atlasAttempt env food_name
  if origins.isEmpty then [⟨"Unknown origin", 0, 0, .unknown⟩] else origins

/-! ## Nutrition lookup (get_nutritional_data, lines 99-114) -/

/-- One entry of `foodNutrients`; the `"value"` key may be absent
(`.get("value", "N/A")`). -/
structure FoodNutrient where
  value : Option ℚ
deriving DecidableEq, Repr

/-- One entry of `foods`; the `"foodNutrients"` key may be absent
(`.get("foodNutrients", [{}])`). -/
structure FoodItem where
  foodNutrients : Option (List FoodNutrient)
deriving DecidableEq, Repr

/-- The decoded JSON payload.  `data.get("foods")` is falsy both when the key
is missing and when the array is empty; both are modelled by `[]`. -/
structure NutritionPayload where
  foods : List FoodItem
deriving DecidableEq, Repr

structure HttpResponse where
  statusCode : Nat
  json : Except String NutritionPayload

/-- Environment observed by one invocation of `get_nutritional_data`:
`requests.get(url)`, keyed by URL, may itself raise (e.g. `ConnectionError`)
— the source does not wrap this call in try/except.  `usdaApiKey` is the
`USDA_API_KEY` environment variable read at line 33. -/
structure NutritionEnv where
  usdaApiKey : String
  httpGet : String → Except String HttpResponse

/-- Line 101: the USDA search URL. -/
def usdaUrl (env : NutritionEnv) (food_name : String) : String :=
  "https://api.nal.usda.gov/fdc/v1/foods/search?query=" ++ food_name ++
    "&api_key=" ++ env.usdaApiKey

/-- A nutrient field of the returned dict: a number, or the `"N/A"`
sentinel. -/
inductive NutValue where
  | num (q : ℚ)
  | na
deriving DecidableEq, Repr

structure NutrientDict where
  calories : NutValue
  protein : NutValue
  fat : NutValue
  carbs : NutValue
deriving DecidableEq, Repr

/-- `get_nutritional_data` returns either the nutrient dict or the fallback
string `"No nutritional data for {food_name}."`. -/
inductive NutritionResult where
  | table (n : NutrientDict)
  | message (s : String)
deriving DecidableEq, Repr

/-- `food.get("foodNutrients", [{}])[i].get("value", "N/A")`: the outer
indexing raises `IndexError` when out of range; the inner `.get` substitutes
the sentinel. -/
def nutrientAt (fns : List FoodNutrient) (i : Nat) : Except String NutValue :=
  match fns.get? i with
  | some fn => .ok (match fn.value with | some q => .num q | none => .na)
  | none => .error "IndexError"

/-- `get_nutritional_data` (lines 99-114), the body behind `lru_cache`.
Exceptions from the network layer and from the fixed-index nutrient access
propagate — this function has no try/except. -/
def get_nutritional_data (env : NutritionEnv) (food_name : String) :
    Except String NutritionResult := do
  let resp ← env.httpGet (usdaUrl env food_name)
  if resp.statusCode = 200 then
    let data ← resp.json
    match data.foods with
    | [] => .ok (.message ("No nutritional data for " ++ food_name ++ "."))
    | food :: _ =>
      let fns := food.foodNutrients.getD [⟨none⟩]
      let cal ← nutrientAt fns 0
      let pro ← nutrientAt fns 1
      let fatv ← nutrientAt fns 2
      let car ← nutrientAt fns 3
      .ok (.table ⟨cal, pro, fatv, car⟩)
  else .ok (.message ("No nutritional data for " ++ food_name ++ "."))

/-! ## Quirky fact (generate_quirky_fact, lines 117-127) -/

/-- Environment observed by one invocation of `generate_quirky_fact`:
the texts of `response.choices` for a given prompt (the whole API call may
raise). -/
structure FactEnv where
  choices : String → Except String (List String)

/-- Line 122: the completion prompt. -/
def factPrompt (food_name : String) : String :=
  "Tell me a quirky fact about " ++ food_name ++ "."

/-- `generate_quirky_fact` (lines 117-127): `response.choices[0].text.strip()`
inside a try-block whose except-arm returns the placeholder. -/
def generate_quirky_fact (env : FactEnv) (food_name : String) : String :=
  let attempt : Except String String := do
    let cs ← env.choices (factPrompt food_name)
    let c ← listIdx cs 0
    .ok c.trim
  match attempt with
  | .ok s => s
  | .error _ => "Could not generate a quirky fact."

/-! ## Per-item enrichment (main loop body, lines 157-162) -/

structure EnrichmentResult where
  origins : List OriginRecord
  nutrition : NutritionResult
  fact : String
deriving Repr

/-- The per-food body of the main loop (lines 157-162): it displays
`get_food_origin_coordinates(...)[0][0]` (an indexing step), renders the
nutrition result of `get_nutritional_data` and the fact of
`generate_quirky_fact`.  An exception from any of these propagates. -/
def enrichItem (oe : OriginEnv) (ne : NutritionEnv) (fe : FactEnv)
    (food_name : String) : Except String EnrichmentResult := do
  let _first ← listIdx (get_food_origin_coordinates oe food_name) 0
  let nut ← get_nutritional_data ne food_name
  .ok ⟨get_food_origin_coordinates oe food_name, nut,
       generate_quirky_fact fe food_name⟩

def enrichAll (oe : OriginEnv) (ne : NutritionEnv) (fe : FactEnv) :
    List Detection → Except String (List EnrichmentResult)
  | [] => .ok []
  | d :: ds => do
    let r ← enrichItem oe ne fe d.name
    let rs ← enrichAll oe ne fe ds
    .ok (r :: rs)

/-! ## Map export (visualize_with_kepler, lines 130-142) -/

structure MapRow where
  name : String
  latitude : ℚ
  longitude : ℚ
  rowType : String
deriving DecidableEq, Repr

/-- `visualize_with_kepler` (lines 130-142): the user geocode is NOT inside a
try-block; a geocoder exception propagates and a `None` result raises
`AttributeError` at `user_coords.latitude`. -/
def visualize_with_kepler (oe : OriginEnv) (food_name user_location : String) :
    Except String (List MapRow) := do
  let uc ← oe.geocode user_location
  match uc with
  | none => .error "AttributeError"
  | some (ula, ulo) =>
    let origins := get_food_origin_coordinates oe food_name
    .ok (⟨"User Location", ula, ulo, "Consumption Place"⟩ ::
         origins.map (fun o => ⟨o.narrative, o.latitude, o.longitude, "Food Origin"⟩))

/-! ## The request pipeline (lines 149-167) -/

/-- The body of `if uploaded_file and user_location:` (lines 149-167):
detect and annotate, enrich each detected food, then build the map from
`detected_foods[0]['name']` — an unconditional first-element indexing. -/
def mainFlow (oe : OriginEnv) (ne : NutritionEnv) (fe : FactEnv)
    (resp : List VisionObject) (img : Image) (user_location : String) :
    Except String (List Detection × Image × List EnrichmentResult × List MapRow) := do
  let (dets, annotated) ← detect_food_from_image resp img
  let enriched ← enrichAll oe ne fe dets
  let first ← listIdx dets 0
  let rows ← visualize_with_kepler oe first.name user_location
  .ok (dets, annotated, enriched, rows)

/-! ## Startup credential handling (lines 22-33) -/

inductive StartupStatus where
  | proceeded (errors : List String)
  | halted (message : String)
deriving DecidableEq, Repr

def StartupStatus.halts : StartupStatus → Bool
  | .halted _ => true
  | .proceeded _ => false

/-- The credential setup block (lines 22-29): when
`GOOGLE_APPLICATION_CREDENTIALS_PATH` is set the credentials file is written
and execution proceeds; when it is absent `st.error` renders a message and
execution still proceeds — nothing stops the script. -/
def credentialSetup (googleCredentials : Option String) : StartupStatus :=
  match googleCredentials with
  | some _ => .proceeded []
  | none =>
    .proceeded ["Google Vision credentials not found. Check your environment variables."]

/-! ## The memoization layer (`functools.lru_cache(maxsize=50)`, lines 66, 99, 117)

Each of the three lookups is wrapped in `lru_cache(maxsize=50)`: a hit moves
the entry to the most-recently-used position and returns the stored value
without calling the wrapped function; a miss calls the wrapped function,
stores the result at the most-recently-used position and, past 50 entries,
evicts the least-recently-used entry.

The cache is modelled as an association list in recency order (most recent
first).  The wrapped function is modelled as `compute : K → Nat → α`, where
the second argument is the number of underlying invocations made so far:
this lets the external world answer differently on different contacts.  The
`missed` field logs, in order, the key of every underlying invocation. -/

structure LruState (K α : Type) where
  cache : List (K × α)
  missed : List K
deriving Repr

def lookupVal {K α : Type} [DecidableEq K] : List (K × α) → K → Option α
  | [], _ => none
  | (k', v) :: rest, k => if k = k' then some v else lookupVal rest k

def cacheKeys {K α : Type} (c : List (K × α)) : List K := c.map Prod.fst

/-- Remove the entry with key `k` (used to move a hit entry to the front). -/
def dropKey {K α : Type} [DecidableEq K] (c : List (K × α)) (k : K) : List (K × α) :=
  c.filter (fun e => !(decide (e.1 = k)))

/-- One call through the `lru_cache` wrapper. -/
def lruStep {K α : Type} [DecidableEq K] (cap : Nat) (compute : K → Nat → α)
    (s : LruState K α) (k : K) : α × LruState K α :=
  match lookupVal s.cache k with
  | some v => (v, ⟨(k, v) :: dropKey s.cache k, s.missed⟩)
  | none =>
    let v := compute k s.missed.length
    (v, ⟨((k, v) :: s.cache).take cap, s.missed ++ [k]⟩)

/-- A sequence of calls through the wrapper, returning the final state and
the value each call returned. -/
def runLru {K α : Type} [DecidableEq K] (cap : Nat) (compute : K → Nat → α) :
    LruState K α → List K → LruState K α × List α
  | s, [] => (s, [])
  | s, k :: ks =>
    let p := lruStep cap compute s k
    let r := runLru cap compute p.2 ks
    (r.1, p.1 :: r.2)

/-! ## Concrete environments (used by witnesses and counterexamples) -/

/-- Both origin sources are down: the Wikipedia call raises and the atlas
fetch raises. -/
def failOriginEnv : OriginEnv where
  wikiSummary := .error "PageError"
  geocode := fun _ => .error "GeocoderUnavailable"
  atlasGet := fun _ => .error "ConnectionError"

/-- Both origin sources succeed. -/
def goodOriginEnv : OriginEnv where
  wikiSummary := .ok "Pizza is an Italian dish."
  geocode := fun _ => .ok (some (41, 12))
  atlasGet := fun _ => .ok (200, some "Naples, Italy")

/-- Wikipedia succeeds, the atlas fetch returns HTTP 404. -/
def atlas404Env : OriginEnv where
  wikiSummary := .ok "Pizza is an Italian dish."
  geocode := fun _ => .ok (some (41, 12))
  atlasGet := fun _ => .ok (404, none)

/-- A well-formed USDA response with four nutrient entries. -/
def goodNutritionEnv : NutritionEnv where
  usdaApiKey := "demo-key"
  httpGet := fun _ =>
    .ok ⟨200, .ok ⟨[⟨some [⟨some 266⟩, ⟨some 11⟩, ⟨some 10⟩, ⟨some 33⟩]⟩]⟩⟩

/-- The USDA request itself raises (network down). -/
def downNutritionEnv : NutritionEnv where
  usdaApiKey := "demo-key"
  httpGet := fun _ => .error "ConnectionError"

/-- A 200 USDA response whose first food has only one nutrient entry. -/
def shortNutrientEnv : NutritionEnv where
  usdaApiKey := "demo-key"
  httpGet := fun _ => .ok ⟨200, .ok ⟨[⟨some [⟨some 95⟩]⟩]⟩⟩

def goodFactEnv : FactEnv where
  choices := fun _ => .ok ["  The first pizzeria opened in 1830.  "]

def pizzaNutrition : NutritionResult :=
  .table ⟨.num 266, .num 11, .num 10, .num 33⟩

/-- A localized object whose label is not food/dish/plate. -/
def carObject : VisionObject :=
  ⟨"Car", 9 / 10, [(0, 0), (1, 0), (1, 1), (0, 1)]⟩

def testImage : Image := ⟨640, 480, []⟩

/-- The cache-wrapped origin lookup in a world where the very first
underlying network contact fails (both sources down) and every later contact
succeeds. -/
def retryOriginCompute (nm : String) (i : Nat) : List OriginRecord :=
  get_food_origin_coordinates (if i = 0 then failOriginEnv else goodOriginEnv) nm

/-- A call pattern with 51 distinct food names: "Pizza", then 50 further
distinct names, then "Pizza" again — one more distinct key than the
`lru_cache` capacity. -/
def pizzaThenFiftyNames : List String :=
  "Pizza" :: ((List.range 50).map (fun i => "k" ++ Nat.repr i) ++ ["Pizza"])

/-! ## Structure lemmas for the origin resolver -/

theorem wikiAttempt_eq_nil_or_singleton (env : OriginEnv) (food_name : String) :
    wikiAttempt env food_name = [] ∨
      ∃ r, wikiAttempt env food_name = [r] ∧ r.source = .encyclopedia := by
  unfold wikiAttempt
  cases hw : env.wikiSummary with
  | error e => exact .inl rfl
  | ok s =>
    cases hg : env.geocode food_name with
    | error e => exact .inl rfl
    | ok o =>
      cases o with
      | none => exact .inl rfl
      | some p => exact .inr ⟨_, rfl, rfl⟩

theorem atlasAttempt_eq_nil_or_singleton (env : OriginEnv) (food_name : String) :
    atlasAttempt env food_name = [] ∨
      ∃ r, atlasAttempt env food_name = [r] ∧ r.source = .atlas := by
  unfold atlasAttempt
  split
  · exact .inl rfl
  · split
    · split
      · exact .inl rfl
      · exact .inl rfl
      · exact .inr ⟨_, rfl, rfl⟩
    · exact .inl rfl

theorem get_food_origin_coordinates_eq (env : OriginEnv) (food_name : String) :
    get_food_origin_coordinates env food_name =
      if (wikiAttempt env food_name ++ atlasAttempt env food_name).isEmpty
      then [⟨"Unknown origin", 0, 0, .unknown⟩]
      else wikiAttempt env food_name ++ atlasAttempt env food_name := rfl

theorem origins_ne_nil (env : OriginEnv) (food_name : String) :
    get_food_origin_coordinates env food_name ≠ [] := by
  rw [get_food_origin_coordinates_eq]
  split
  · simp
  · next h =>
    intro hc
    rw [hc] at h
    exact h rfl

theorem origins_sentinel_of_both_empty (env : OriginEnv) (food_name : String)
    (hw : wikiAttempt env food_name = []) (ha : atlasAttempt env food_name = []) :
    get_food_origin_coordinates env food_name = [⟨"Unknown origin", 0, 0, .unknown⟩] := by
  rw [get_food_origin_coordinates_eq, hw, ha]
  rfl

/-! ## Structure lemmas for detection -/

theorem detectLoop_of_no_qualifying (w h : Nat) :
    ∀ (resp : List VisionObject) (acc : List Detection × Image),
      (∀ obj ∈ resp, pyLower obj.name ∉ ["food", "dish", "plate"]) →
      detectLoop w h resp acc = .ok acc := by
  intro resp
  induction resp with
  | nil => intro acc _; rfl
  | cons obj rest ih =>
    intro acc hall
    obtain ⟨dets, img⟩ := acc
    have hobj : pyLower obj.name ∉ ["food", "dish", "plate"] := hall obj (by simp)
    show (if pyLower obj.name ∈ ["food", "dish", "plate"] then _ else _) = _
    rw [if_neg hobj]
    exact ih (dets, img) (fun o ho => hall o (List.mem_cons_of_mem _ ho))

/-! ## Bounds for the normalized-to-pixel conversion -/

theorem pyInt_mul_dim_bounds (x : ℚ) (n : Nat) (h0 : 0 ≤ x) (h1 : x ≤ 1) :
    0 ≤ pyInt (x * n) ∧ pyInt (x * n) ≤ n := by
  have hn : (0 : ℚ) ≤ (n : ℚ) := by positivity
  have hx : (0 : ℚ) ≤ x * n := mul_nonneg h0 hn
  unfold pyInt
  rw [if_pos hx]
  refine ⟨Int.floor_nonneg.mpr hx, ?_⟩
  have hle : x * n ≤ n := by
    calc x * n ≤ 1 * n := mul_le_mul_of_nonneg_right h1 hn
    _ = n := one_mul _
  calc ⌊x * (n : ℚ)⌋ ≤ ⌊((n : Nat) : ℚ)⌋ := Int.floor_le_floor hle
  _ = n := Int.floor_natCast n

/-! ## Lemmas about the memoization layer -/

section LruLemmas

variable {K α : Type} [DecidableEq K]

theorem lookupVal_isSome_iff (c : List (K × α)) (k : K) :
    (lookupVal c k).isSome ↔ k ∈ cacheKeys c := by
  induction c with
  | nil => simp [lookupVal, cacheKeys]
  | cons e rest ih =>
    obtain ⟨k', v⟩ := e
    by_cases h : k = k'
    · simp [lookupVal, cacheKeys, h]
    · simp [lookupVal, cacheKeys, h, ih]

theorem mem_cacheKeys_dropKey (c : List (K × α)) (k k' : K) :
    k' ∈ cacheKeys (dropKey c k) ↔ k' ≠ k ∧ k' ∈ cacheKeys c := by
  simp only [cacheKeys, dropKey, List.mem_map, List.mem_filter]
  constructor
  · rintro ⟨e, ⟨he, hp⟩, rfl⟩
    simp only [Bool.not_eq_true', decide_eq_false_iff_not] at hp
    exact ⟨hp, e, he, rfl⟩
  · rintro ⟨hne, e, he, rfl⟩
    refine ⟨e, ⟨he, ?_⟩, rfl⟩
    simp only [Bool.not_eq_true', decide_eq_false_iff_not]
    exact hne

theorem dropKey_sublist (c : List (K × α)) (k : K) :
    List.Sublist (dropKey c k) c :=
  List.filter_sublist c

theorem nodup_cacheKeys_dropKey (c : List (K × α)) (k : K)
    (h : (cacheKeys c).Nodup) : (cacheKeys (dropKey c k)).Nodup :=
  h.sublist ((dropKey_sublist c k).map Prod.fst)

theorem dropKey_eq_of_not_mem (c : List (K × α)) (k : K)
    (h : k ∉ cacheKeys c) : dropKey c k = c := by
  apply List.filter_eq_self.mpr
  intro e he
  simp only [Bool.not_eq_eq_eq_not, Bool.not_true, decide_eq_false_iff_not]
  intro hc
  exact h (hc ▸ List.mem_map_of_mem Prod.fst he)

theorem length_dropKey_add_one (c : List (K × α)) (k : K)
    (hnd : (cacheKeys c).Nodup) (hk : k ∈ cacheKeys c) :
    (dropKey c k).length + 1 = c.length := by
  induction c with
  | nil => simp [cacheKeys] at hk
  | cons e rest ih =>
    obtain ⟨k₀, v⟩ := e
    simp only [cacheKeys, List.map_cons, List.nodup_cons] at hnd
    by_cases h : k₀ = k
    · subst h
      have hdk : dropKey ((k₀, v) :: rest) k₀ = dropKey rest k₀ := by
        simp [dropKey, List.filter_cons]
      rw [hdk, dropKey_eq_of_not_mem rest k₀ hnd.1]
      simp
    · have hmem : k ∈ cacheKeys rest := by
        simp only [cacheKeys, List.map_cons, List.mem_cons] at hk
        rcases hk with rfl | hk
        · exact (h rfl).elim
        · exact hk
      have hdk : dropKey ((k₀, v) :: rest) k = (k₀, v) :: dropKey rest k := by
        simp [dropKey, List.filter_cons, h]
      rw [hdk, List.length_cons, List.length_cons, ← ih hnd.2 hmem]

theorem lookupVal_cons_self (c : List (K × α)) (k : K) (v : α) :
    lookupVal ((k, v) :: c) k = some v := by
  simp [lookupVal]

theorem lookupVal_cons_ne (c : List (K × α)) (k k' : K) (v : α) (h : k' ≠ k) :
    lookupVal ((k, v) :: c) k' = lookupVal c k' := by
  simp [lookupVal, h]

theorem lookupVal_dropKey_ne (c : List (K × α)) (k k' : K) (h : k' ≠ k) :
    lookupVal (dropKey c k) k' = lookupVal c k' := by
  induction c with
  | nil => simp [dropKey]
  | cons e rest ih =>
    obtain ⟨k₀, v⟩ := e
    by_cases h0 : k₀ = k
    · subst h0
      have : dropKey ((k₀, v) :: rest) k₀ = dropKey rest k₀ := by
        simp [dropKey, List.filter_cons]
      rw [this, ih, lookupVal_cons_ne rest k₀ k' v h]
    · have : dropKey ((k₀, v) :: rest) k = (k₀, v) :: dropKey rest k := by
        simp [dropKey, List.filter_cons, h0]
      rw [this]
      by_cases h1 : k' = k₀
      · subst h1
        simp [lookupVal]
      · rw [lookupVal_cons_ne _ _ _ _ h1, lookupVal_cons_ne _ _ _ _ h1, ih]

/-- Main invariant of the memoization layer: as long as the run touches at
most `cap` distinct keys (counted via the hypothesis on the starting state),
no entry is ever evicted, so (1) cache keys stay nodup, (2) the log of
underlying invocations stays nodup, (3) every logged key stays cached,
(4) cached values persist and (5) every call returns exactly the value the
final cache holds for its key. -/
theorem runLru_invariant (cap : Nat) (compute : K → Nat → α) :
    ∀ (ks : List K) (s : LruState K α),
      (cacheKeys s.cache).Nodup →
      s.missed.Nodup →
      (∀ k ∈ s.missed, k ∈ cacheKeys s.cache) →
      s.cache.length + (ks.toFinset.filter (fun k => k ∉ cacheKeys s.cache)).card ≤ cap →
      (cacheKeys (runLru cap compute s ks).1.cache).Nodup ∧
      (runLru cap compute s ks).1.missed.Nodup ∧
      (∀ k ∈ (runLru cap compute s ks).1.missed,
        k ∈ cacheKeys (runLru cap compute s ks).1.cache) ∧
      (∀ k v, lookupVal s.cache k = some v →
        lookupVal (runLru cap compute s ks).1.cache k = some v) ∧
      (∀ p ∈ ks.zip (runLru cap compute s ks).2,
        lookupVal (runLru cap compute s ks).1.cache p.1 = some p.2) := by
  intro ks
  induction ks with
  | nil =>
    intro s h1 h2 h3 _
    exact ⟨h1, h2, h3, fun k v hv => hv, by simp [runLru]⟩
  | cons k ks ih =>
    intro s h1 h2 h3 h4
    cases hl : lookupVal s.cache k with
    | some v =>
      have hkmem : k ∈ cacheKeys s.cache := by
        rw [← lookupVal_isSome_iff, hl]
        rfl
      have hstep : runLru cap compute s (k :: ks) =
          ((runLru cap compute ⟨(k, v) :: dropKey s.cache k, s.missed⟩ ks).1,
           v :: (runLru cap compute ⟨(k, v) :: dropKey s.cache k, s.missed⟩ ks).2) := by
        simp [runLru, lruStep, hl]
      have hmemiff : ∀ k', k' ∈ cacheKeys ((k, v) :: dropKey s.cache k) ↔
          k' ∈ cacheKeys s.cache := by
        intro k'
        simp only [cacheKeys, List.map_cons, List.mem_cons]
        constructor
        · rintro (rfl | hm)
          · exact hkmem
          · exact ((mem_cacheKeys_dropKey _ _ _).mp hm).2
        · intro hm
          by_cases he : k' = k
          · exact .inl he
          · exact .inr ((mem_cacheKeys_dropKey _ _ _).mpr ⟨he, hm⟩)
      have h1' : (cacheKeys ((k, v) :: dropKey s.cache k)).Nodup := by
        simp only [cacheKeys, List.map_cons]
        refine List.nodup_cons.mpr ⟨?_, nodup_cacheKeys_dropKey s.cache k h1⟩
        intro hc
        exact ((mem_cacheKeys_dropKey s.cache k k).mp hc).1 rfl
      have h3' : ∀ k' ∈ s.missed, k' ∈ cacheKeys ((k, v) :: dropKey s.cache k) :=
        fun k' hk' => (hmemiff k').mpr (h3 k' hk')
      have hlen : ((k, v) :: dropKey s.cache k).length = s.cache.length := by
        simp only [List.length_cons]
        exact length_dropKey_add_one s.cache k h1 hkmem
      have h4' : ((k, v) :: dropKey s.cache k).length +
          (ks.toFinset.filter
            (fun x => x ∉ cacheKeys ((k, v) :: dropKey s.cache k))).card ≤ cap := by
        rw [hlen]
        have hfeq : ks.toFinset.filter
            (fun x => x ∉ cacheKeys ((k, v) :: dropKey s.cache k)) =
            ks.toFinset.filter (fun x => x ∉ cacheKeys s.cache) :=
          Finset.filter_congr (fun x _ => by rw [hmemiff x])
        rw [hfeq]
        refine le_trans (Nat.add_le_add_left
          (Finset.card_le_card (Finset.filter_subset_filter _ ?_)) _) h4
        rw [List.toFinset_cons]
        exact Finset.subset_insert k ks.toFinset
      obtain ⟨g1, g2, g3, g4, g5⟩ :=
        ih ⟨(k, v) :: dropKey s.cache k, s.missed⟩ h1' h2 h3' h4'
      rw [hstep]
      refine ⟨g1, g2, g3, ?_, ?_⟩
      · intro k'' v'' hv''
        by_cases he : k'' = k
        · subst he
          rw [hl] at hv''
          injection hv'' with hv''
          subst hv''
          exact g4 k'' v (lookupVal_cons_self _ _ _)
        · refine g4 k'' v'' ?_
          rw [lookupVal_cons_ne _ _ _ _ he, lookupVal_dropKey_ne _ _ _ he]
          exact hv''
      · intro p hp
        rw [List.zip_cons_cons] at hp
        rcases List.mem_cons.mp hp with rfl | hp
        · exact g4 k v (lookupVal_cons_self _ _ _)
        · exact g5 p hp
    | none =>
      have hknot : k ∉ cacheKeys s.cache := by
        rw [← lookupVal_isSome_iff, hl]
        simp
      have hkf : k ∈ (k :: ks).toFinset.filter (fun x => x ∉ cacheKeys s.cache) := by
        rw [Finset.mem_filter]
        exact ⟨by simp, hknot⟩
      have hlen1 : s.cache.length + 1 ≤ cap := by
        have hc1 : 1 ≤ ((k :: ks).toFinset.filter
            (fun x => x ∉ cacheKeys s.cache)).card :=
          Finset.card_pos.mpr ⟨k, hkf⟩
        omega
      have htake : ((k, compute k s.missed.length) :: s.cache).take cap =
          (k, compute k s.missed.length) :: s.cache := by
        refine List.take_of_length_le ?_
        simp only [List.length_cons]
        exact hlen1
      have hstep : runLru cap compute s (k :: ks) =
          ((runLru cap compute
              ⟨(k, compute k s.missed.length) :: s.cache, s.missed ++ [k]⟩ ks).1,
           compute k s.missed.length ::
             (runLru cap compute
               ⟨(k, compute k s.missed.length) :: s.cache, s.missed ++ [k]⟩ ks).2) := by
        simp [runLru, lruStep, hl, htake]
      have h1' : (cacheKeys ((k, compute k s.missed.length) :: s.cache)).Nodup := by
        simp only [cacheKeys, List.map_cons]
        exact List.nodup_cons.mpr ⟨hknot, h1⟩
      have hknotm : k ∉ s.missed := fun hm => hknot (h3 k hm)
      have h2' : (s.missed ++ [k]).Nodup := by
        rw [List.nodup_append]
        refine ⟨h2, List.nodup_singleton k, ?_⟩
        intro a ha hb
        rw [List.mem_singleton] at hb
        subst hb
        exact hknotm ha
      have h3' : ∀ k' ∈ s.missed ++ [k],
          k' ∈ cacheKeys ((k, compute k s.missed.length) :: s.cache) := by
        intro k' hk'
        simp only [cacheKeys, List.map_cons, List.mem_cons]
        rcases List.mem_append.mp hk' with hm | hm
        · exact .inr (h3 k' hm)
        · rw [List.mem_singleton] at hm
          exact .inl hm
      have hmem' : ∀ x, (x ∉ cacheKeys ((k, compute k s.missed.length) :: s.cache)) ↔
          (x ∉ cacheKeys s.cache ∧ x ≠ k) := by
        intro x
        simp only [cacheKeys, List.map_cons, List.mem_cons]
        constructor
        · intro hx
          exact ⟨fun hc => hx (.inr hc), fun hc => hx (.inl hc)⟩
        · rintro ⟨hx1, hx2⟩ (hc | hc)
          · exact hx2 hc
          · exact hx1 hc
      have h4' : ((k, compute k s.missed.length) :: s.cache).length +
          (ks.toFinset.filter
            (fun x => x ∉ cacheKeys ((k, compute k s.missed.length) :: s.cache))).card
            ≤ cap := by
        have hfeq : ks.toFinset.filter
            (fun x => x ∉ cacheKeys ((k, compute k s.missed.length) :: s.cache)) =
            (ks.toFinset.filter (fun x => x ∉ cacheKeys s.cache)).erase k := by
          ext x
          simp only [Finset.mem_filter, Finset.mem_erase, hmem' x]
          tauto
        rw [hfeq]
        have hF := h4
        rw [List.toFinset_cons, Finset.filter_insert, if_pos hknot] at hF
        by_cases hkS : k ∈ ks.toFinset.filter (fun x => x ∉ cacheKeys s.cache)
        · rw [Finset.insert_eq_self.mpr hkS] at hF
          have hc1 : 1 ≤ (ks.toFinset.filter (fun x => x ∉ cacheKeys s.cache)).card :=
            Finset.card_pos.mpr ⟨k, hkS⟩
          rw [Finset.card_erase_of_mem hkS]
          simp only [List.length_cons]
          omega
        · rw [Finset.erase_eq_of_not_mem hkS]
          rw [Finset.card_insert_of_not_mem hkS] at hF
          simp only [List.length_cons]
          omega
      obtain ⟨g1, g2, g3, g4, g5⟩ :=
        ih ⟨(k, compute k s.missed.length) :: s.cache, s.missed ++ [k]⟩ h1' h2' h3' h4'
      rw [hstep]
      refine ⟨g1, g2, g3, ?_, ?_⟩
      · intro k'' v'' hv''
        have he : k'' ≠ k := by
          intro hc
          subst hc
          rw [hl] at hv''
          exact Option.noConfusion hv''
        refine g4 k'' v'' ?_
        rw [lookupVal_cons_ne _ _ _ _ he]
        exact hv''
      · intro p hp
        rw [List.zip_cons_cons] at hp
        rcases List.mem_cons.mp hp with rfl | hp
        · exact g4 k (compute k s.missed.length) (lookupVal_cons_self _ _ _)
        · exact g5 p hp

end LruLemmas

/-! ## Claim theorems -/

/-- C2: the claim says a 200 response whose first food carries fewer than 4
nutrient entries yields "N/A" sentinels and never an index error; the code
instead raises `IndexError` at the fixed-index access
`food.get("foodNutrients", [{}])[1]`.  This theorem evaluates the resolver at
such a response (one nutrient entry) and shows it raises. -/
theorem nutrition_short_array_raises_index_error :
    get_nutritional_data shortNutrientEnv "Apple" = .error "IndexError" := rfl

/-- C3 counterexample: with the credential absent, the startup block does
not halt — it proceeds, refuting "the process refuses to start". -/
theorem credential_missing_does_not_halt :
    (credentialSetup none).halts = false := rfl

/-- C3 (amended): if the Google Vision credential is absent at startup, the
app reports which credential is missing in an error message but continues to
run; if the credential is present it proceeds with no error message. -/
theorem credential_missing_reports_and_proceeds :
    credentialSetup none =
      .proceeded ["Google Vision credentials not found. Check your environment variables."] ∧
    ∀ cred, credentialSetup (some cred) = .proceeded [] :=
  ⟨rfl, fun _ => rfl⟩

/-- C4: for every environment and food name the origin resolver returns a
non-empty list, and when both the encyclopedia attempt and the atlas attempt
fail (produce no record) the result is exactly the single sentinel record
with narrative "Unknown origin" and coordinates (0, 0). -/
theorem origin_resolver_nonempty_with_sentinel (env : OriginEnv) (food_name : String) :
    get_food_origin_coordinates env food_name ≠ [] ∧
    (wikiAttempt env food_name = [] → atlasAttempt env food_name = [] →
      get_food_origin_coordinates env food_name = [⟨"Unknown origin", 0, 0, .unknown⟩]) :=
  ⟨origins_ne_nil env food_name, origins_sentinel_of_both_empty env food_name⟩

/-- C4 witness: concrete environment in which both sources raise. -/
theorem origin_resolver_nonempty_with_sentinel_witness :
    get_food_origin_coordinates failOriginEnv "Xyzzyfood123" ≠ [] ∧
    get_food_origin_coordinates failOriginEnv "Xyzzyfood123" =
      [⟨"Unknown origin", 0, 0, .unknown⟩] :=
  ⟨(origin_resolver_nonempty_with_sentinel failOriginEnv "Xyzzyfood123").1,
   (origin_resolver_nonempty_with_sentinel failOriginEnv "Xyzzyfood123").2 rfl rfl⟩

/-- C6: when no object of the vision response carries a qualifying
(food/dish/plate) label, the annotator returns the unmodified input image
and an empty detection list, as a normal (non-error) result. -/
theorem no_qualifying_detection_returns_input (resp : List VisionObject) (img : Image)
    (h : ∀ obj ∈ resp, pyLower obj.name ∉ ["food", "dish", "plate"]) :
    detect_food_from_image resp img = .ok ([], img) :=
  detectLoop_of_no_qualifying img.width img.height resp ([], img) h

/-- C6 witness: a response containing only a non-food object. -/
theorem no_qualifying_detection_returns_input_witness :
    detect_food_from_image [carObject] testImage = .ok ([], testImage) :=
  no_qualifying_detection_returns_input [carObject] testImage (by decide)

/-- C8: for every normalized coordinate pair with both fractions in [0, 1]
and every image of width w and height h, the mapped pixel point produced by
the annotator satisfies 0 ≤ x ≤ w and 0 ≤ y ≤ h. -/
theorem pixel_coordinates_within_image_bounds (x y : ℚ) (w h : Nat)
    (hx0 : 0 ≤ x) (hx1 : x ≤ 1) (hy0 : 0 ≤ y) (hy1 : y ≤ 1) :
    0 ≤ (toPixel (x, y) w h).1 ∧ (toPixel (x, y) w h).1 ≤ (w : ℤ) ∧
    0 ≤ (toPixel (x, y) w h).2 ∧ (toPixel (x, y) w h).2 ≤ (h : ℤ) := by
  have hx := pyInt_mul_dim_bounds x w hx0 hx1
  have hy := pyInt_mul_dim_bounds y h hy0 hy1
  exact ⟨hx.1, hx.2, hy.1, hy.2⟩

/-- C8 witness: the point (1/2, 3/4) on a 640 by 480 image. -/
theorem pixel_coordinates_within_image_bounds_witness :
    ((0 : ℚ) ≤ 1 / 2 ∧ (1 / 2 : ℚ) ≤ 1 ∧ (0 : ℚ) ≤ 3 / 4 ∧ (3 / 4 : ℚ) ≤ 1) ∧
    (0 ≤ (toPixel (1 / 2, 3 / 4) 640 480).1 ∧
     (toPixel (1 / 2, 3 / 4) 640 480).1 ≤ (640 : ℤ) ∧
     0 ≤ (toPixel (1 / 2, 3 / 4) 640 480).2 ∧
     (toPixel (1 / 2, 3 / 4) 640 480).2 ≤ (480 : ℤ)) :=
  ⟨⟨by norm_num, by norm_num, by norm_num, by norm_num⟩,
   pixel_coordinates_within_image_bounds (1 / 2) (3 / 4) 640 480
     (by norm_num) (by norm_num) (by norm_num) (by norm_num)⟩

/-- C10: when an image and a location are supplied but the detector yields
zero qualifying food items, the request pipeline raises `IndexError` at the
map-building step, because line 165 unconditionally indexes
`detected_foods[0]`. -/
theorem zero_detections_raise_index_error (oe : OriginEnv) (ne : NutritionEnv)
    (fe : FactEnv) (resp : List VisionObject) (img : Image) (user_location : String)
    (h : ∀ obj ∈ resp, pyLower obj.name ∉ ["food", "dish", "plate"]) :
    mainFlow oe ne fe resp img user_location = .error "IndexError" := by
  have hd : detect_food_from_image resp img = .ok ([], img) :=
    detectLoop_of_no_qualifying img.width img.height resp ([], img) h
  unfold mainFlow
  rw [hd]
  rfl

/-- C10 witness: concrete request whose only detected object is not food. -/
theorem zero_detections_raise_index_error_witness :
    mainFlow failOriginEnv downNutritionEnv goodFactEnv [carObject] testImage "Boston" =
      .error "IndexError" :=
  zero_detections_raise_index_error failOriginEnv downNutritionEnv goodFactEnv
    [carObject] testImage "Boston" (by decide)

/-- C1 counterexample: the claim that the enrichment step never propagates
an error fails — the nutrition resolver has no try/except, so a
network-layer exception propagates out of the per-item enrichment. -/
theorem enrich_propagates_nutrition_error :
    enrichItem goodOriginEnv downNutritionEnv goodFactEnv "Pizza" =
      .error "ConnectionError" := rfl

/-- C1 (amended): the origin and fact resolvers are total (placeholders on
failure, visible in their return types), and whenever the nutrition lookup
returns normally the enrichment step returns normally with all three fields
populated (origins from the resolver and non-empty, the nutrition value, and
the generated fact); but a nutrition-level exception propagates. -/
theorem enrich_ok_of_nutrition_ok (oe : OriginEnv) (ne : NutritionEnv) (fe : FactEnv)
    (food_name : String) (r : NutritionResult)
    (h : get_nutritional_data ne food_name = .ok r) :
    enrichItem oe ne fe food_name =
      .ok ⟨get_food_origin_coordinates oe food_name, r,
           generate_quirky_fact fe food_name⟩ ∧
    get_food_origin_coordinates oe food_name ≠ [] := by
  refine ⟨?_, origins_ne_nil oe food_name⟩
  obtain ⟨x, xs, hL⟩ := List.exists_cons_of_ne_nil (origins_ne_nil oe food_name)
  have hidx : listIdx (get_food_origin_coordinates oe food_name) 0 = .ok x := by
    rw [hL]
    rfl
  unfold enrichItem
  rw [hidx, h]
  rfl

/-- C1 witness: environment in which the nutrition lookup succeeds. -/
theorem enrich_ok_of_nutrition_ok_witness :
    get_nutritional_data goodNutritionEnv "Pizza" = .ok pizzaNutrition ∧
    (enrichItem goodOriginEnv goodNutritionEnv goodFactEnv "Pizza" =
      .ok ⟨get_food_origin_coordinates goodOriginEnv "Pizza", pizzaNutrition,
           generate_quirky_fact goodFactEnv "Pizza"⟩ ∧
     get_food_origin_coordinates goodOriginEnv "Pizza" ≠ []) :=
  ⟨rfl, enrich_ok_of_nutrition_ok goodOriginEnv goodNutritionEnv goodFactEnv
    "Pizza" pizzaNutrition rfl⟩

/-- C5: whenever the origin-resolver result contains both an encyclopedia
record and an atlas record, the list is exactly [encyclopedia, atlas] — the
encyclopedia record precedes; and in the scenario where the encyclopedia
lookup succeeds (summary and geocode) while the atlas fetch returns HTTP
404, the result is exactly one record, sourced from the encyclopedia. -/
theorem origin_order_encyclopedia_first (env : OriginEnv) (food_name : String) :
    ((∃ e ∈ get_food_origin_coordinates env food_name, e.source = .encyclopedia) →
     (∃ a ∈ get_food_origin_coordinates env food_name, a.source = .atlas) →
     ∃ e a, get_food_origin_coordinates env food_name = [e, a] ∧
       e.source = .encyclopedia ∧ a.source = .atlas) ∧
    (∀ s la lo d, env.wikiSummary = .ok s →
      env.geocode food_name = .ok (some (la, lo)) →
      env.atlasGet (atlasUrl food_name) = .ok (404, d) →
      get_food_origin_coordinates env food_name =
        [⟨"Wikipedia: " ++ s, la, lo, .encyclopedia⟩]) := by
  constructor
  · intro hE hA
    rcases wikiAttempt_eq_nil_or_singleton env food_name with hw | ⟨e, hw, he⟩
    · rcases atlasAttempt_eq_nil_or_singleton env food_name with ha | ⟨a, ha, hsa⟩
      · exfalso
        rw [origins_sentinel_of_both_empty env food_name hw ha] at hE
        obtain ⟨e, he1, he2⟩ := hE
        rw [List.mem_singleton] at he1
        subst he1
        exact absurd he2 (by decide)
      · exfalso
        have hres : get_food_origin_coordinates env food_name = [a] := by
          rw [get_food_origin_coordinates_eq, hw, ha]
          rfl
        rw [hres] at hE
        obtain ⟨e, he1, he2⟩ := hE
        rw [List.mem_singleton] at he1
        subst he1
        rw [hsa] at he2
        exact OriginSource.noConfusion he2
    · rcases atlasAttempt_eq_nil_or_singleton env food_name with ha | ⟨a, ha, hsa⟩
      · exfalso
        have hres : get_food_origin_coordinates env food_name = [e] := by
          rw [get_food_origin_coordinates_eq, hw, ha]
          rfl
        rw [hres] at hA
        obtain ⟨a, ha1, ha2⟩ := hA
        rw [List.mem_singleton] at ha1
        subst ha1
        rw [he] at ha2
        exact OriginSource.noConfusion ha2
      · refine ⟨e, a, ?_, he, hsa⟩
        rw [get_food_origin_coordinates_eq, hw, ha]
        rfl
  · intro s la lo d hw hg ha
    have hwa : wikiAttempt env food_name =
        [⟨"Wikipedia: " ++ s, la, lo, .encyclopedia⟩] := by
      unfold wikiAttempt
      rw [hw, hg]
    have haa : atlasAttempt env food_name = [] := by
      unfold atlasAttempt
      rw [ha]
      rfl
    rw [get_food_origin_coordinates_eq, hwa, haa]
    rfl

/-- C5 witness: both parts at concrete environments — one where both sources
succeed, one where the atlas fetch returns 404. -/
theorem origin_order_encyclopedia_first_witness :
    (∃ e a, get_food_origin_coordinates goodOriginEnv "Pizza" = [e, a] ∧
      e.source = .encyclopedia ∧ a.source = .atlas) ∧
    get_food_origin_coordinates atlas404Env "Pizza" =
      [⟨"Wikipedia: Pizza is an Italian dish.", 41, 12, .encyclopedia⟩] :=
  ⟨(origin_order_encyclopedia_first goodOriginEnv "Pizza").1 (by decide) (by decide),
   (origin_order_encyclopedia_first atlas404Env "Pizza").2
     "Pizza is an Italian dish." 41 12 none rfl rfl rfl⟩

set_option maxRecDepth 200000 in
/-- C7 counterexample: with the source's capacity of 50, querying key 0,
then 50 further distinct keys, then key 0 again makes the wrapper invoke
the underlying compute function twice for key 0 and return two different
values (0 on the first call, 51 on the last), refuting "at most once within
a process lifetime". -/
theorem lru_cache_recomputes_after_eviction :
    (runLru 50 (fun (_ : Nat) n => n) ⟨[], []⟩ (List.range 51 ++ [0])).1.missed.count 0 = 2 ∧
    (runLru 50 (fun (_ : Nat) n => n) ⟨[], []⟩ (List.range 51 ++ [0])).2.head? = some 0 ∧
    (runLru 50 (fun (_ : Nat) n => n) ⟨[], []⟩ (List.range 51 ++ [0])).2.getLast? = some 51 :=
  ⟨by decide, by decide, by decide⟩

/-- C7 (amended): repeated calls through the `lru_cache(maxsize=50)` wrapper
with the same key return the identical cached value and invoke the
underlying compute function at most once, provided the process queries at
most 50 distinct keys for that lookup kind; beyond that, LRU eviction can
trigger recomputation. -/
theorem lru_cache_at_most_once_within_capacity {K α : Type} [DecidableEq K]
    (compute : K → Nat → α) (ks : List K) (h : ks.toFinset.card ≤ 50) :
    (∀ k, (runLru 50 compute ⟨[], []⟩ ks).1.missed.count k ≤ 1) ∧
    (∀ k v₁ v₂, (k, v₁) ∈ ks.zip (runLru 50 compute ⟨[], []⟩ ks).2 →
      (k, v₂) ∈ ks.zip (runLru 50 compute ⟨[], []⟩ ks).2 → v₁ = v₂) := by
  obtain ⟨g1, g2, g3, g4, g5⟩ :=
    runLru_invariant 50 compute ks ⟨[], []⟩ (by simp [cacheKeys]) (by simp) (by simp)
      (by
        have hfil : ks.toFinset.filter
            (fun k => k ∉ cacheKeys ([] : List (K × α))) = ks.toFinset :=
          Finset.filter_true_of_mem (fun x _ => by simp [cacheKeys])
        simpa [hfil] using h)
  refine ⟨fun k => List.nodup_iff_count_le_one.mp g2 k, ?_⟩
  intro k v₁ v₂ h1 h2
  have e1 := g5 (k, v₁) h1
  have e2 := g5 (k, v₂) h2
  rw [e1] at e2
  exact Option.some.inj e2

/-- C7 witness: three calls over two distinct keys. -/
theorem lru_cache_at_most_once_within_capacity_witness :
    (([0, 1, 0] : List Nat).toFinset.card ≤ 50) ∧
    ((∀ k, (runLru 50 (fun (k : Nat) (n : Nat) => k + n) ⟨[], []⟩ [0, 1, 0]).1.missed.count k ≤ 1) ∧
     (∀ k v₁ v₂,
       (k, v₁) ∈ ([0, 1, 0] : List Nat).zip
         (runLru 50 (fun (k : Nat) (n : Nat) => k + n) ⟨[], []⟩ [0, 1, 0]).2 →
       (k, v₂) ∈ ([0, 1, 0] : List Nat).zip
         (runLru 50 (fun (k : Nat) (n : Nat) => k + n) ⟨[], []⟩ [0, 1, 0]).2 → v₁ = v₂)) :=
  ⟨by decide, lru_cache_at_most_once_within_capacity (fun k n => k + n) [0, 1, 0] (by decide)⟩

set_option maxRecDepth 400000 in
/-- C9 counterexample: the sentinel produced by a failed "Pizza" lookup is
cached, but after 50 further distinct names the entry is evicted and the
next "Pizza" call re-contacts the (now recovered) network: the underlying
lookup runs twice and the second result differs from the cached fallback, so
a transient failure IS retried within the process lifetime. -/
theorem origin_lookup_retried_after_eviction :
    (runLru 50 retryOriginCompute ⟨[], []⟩ pizzaThenFiftyNames).1.missed.count "Pizza" = 2 ∧
    (runLru 50 retryOriginCompute ⟨[], []⟩ pizzaThenFiftyNames).2.head? =
      some [⟨"Unknown origin", 0, 0, .unknown⟩] ∧
    (runLru 50 retryOriginCompute ⟨[], []⟩ pizzaThenFiftyNames).2.getLast? ≠
      some [⟨"Unknown origin", 0, 0, .unknown⟩] :=
  ⟨by decide, by decide, by decide⟩

/-- C9 (amended): the value of a name's first lookup — including the
fallback produced when both sources fail — is cached, and every later call
with the same case-sensitive name returns that exact value without another
underlying invocation, provided at most 50 distinct names are queried for
that lookup kind; after eviction the network can be re-contacted. -/
theorem cached_fallback_not_retried_within_capacity
    (envs : Nat → OriginEnv) (name : String) (names : List String) (ew ea : String)
    (hcard : (name :: names).toFinset.card ≤ 50)
    (hw : (envs 0).wikiSummary = .error ew)
    (ha : (envs 0).atlasGet (atlasUrl name) = .error ea) :
    (∀ v, (name, v) ∈ (name :: names).zip
        (runLru 50 (fun nm i => get_food_origin_coordinates (envs i) nm)
          ⟨[], []⟩ (name :: names)).2 →
      v = [⟨"Unknown origin", 0, 0, .unknown⟩]) ∧
    (runLru 50 (fun nm i => get_food_origin_coordinates (envs i) nm)
      ⟨[], []⟩ (name :: names)).1.missed.count name ≤ 1 := by
  have hfail : get_food_origin_coordinates (envs 0) name =
      [⟨"Unknown origin", 0, 0, .unknown⟩] := by
    apply origins_sentinel_of_both_empty
    · unfold wikiAttempt
      rw [hw]
    · unfold atlasAttempt
      rw [ha]
  obtain ⟨g1, g2, g3, g4, g5⟩ :=
    runLru_invariant 50 (fun nm i => get_food_origin_coordinates (envs i) nm)
      (name :: names) ⟨[], []⟩ (by simp [cacheKeys]) (by simp) (by simp)
      (by
        have hfil : ∀ t : Finset String, t.filter
            (fun k => k ∉ cacheKeys ([] : List (String × List OriginRecord))) = t :=
          fun t => Finset.filter_true_of_mem (fun x _ => by simp [cacheKeys])
        simpa [hfil] using hcard)
  refine ⟨?_, List.nodup_iff_count_le_one.mp g2 name⟩
  intro v hv
  have hmem0 : (name, get_food_origin_coordinates (envs 0) name) ∈
      (name :: names).zip
        (runLru 50 (fun nm i => get_food_origin_coordinates (envs i) nm)
          ⟨[], []⟩ (name :: names)).2 := by
    simp [runLru, lruStep, lookupVal, List.zip_cons_cons]
  have e1 := g5 _ hmem0
  have e2 := g5 (name, v) hv
  rw [e1] at e2
  have e3 : get_food_origin_coordinates (envs 0) name = v := Option.some.inj e2
  rw [← e3]
  exact hfail

/-- C9 witness: one failing "Pizza" lookup, well within capacity. -/
theorem cached_fallback_not_retried_within_capacity_witness :
    (["Pizza"].toFinset.card ≤ 50) ∧
    failOriginEnv.wikiSummary = .error "PageError" ∧
    failOriginEnv.atlasGet (atlasUrl "Pizza") = .error "ConnectionError" ∧
    ((∀ v, ("Pizza", v) ∈ ["Pizza"].zip
        (runLru 50 (fun nm i => get_food_origin_coordinates ((fun _ => failOriginEnv) i) nm)
          ⟨[], []⟩ ["Pizza"]).2 →
      v = [⟨"Unknown origin", 0, 0, .unknown⟩]) ∧
     (runLru 50 (fun nm i => get_food_origin_coordinates ((fun _ => failOriginEnv) i) nm)
       ⟨[], []⟩ ["Pizza"]).1.missed.count "Pizza" ≤ 1) :=
  ⟨by decide, rfl, rfl,
   cached_fallback_not_retried_within_capacity (fun _ => failOriginEnv) "Pizza" []
     "PageError" "ConnectionError" (by decide) rfl rfl⟩

end PlateMap
